import Mathlib

/-!
# vault-exporter: the collection cycle, the descriptors, the logger and `mainE`

A shallow embedding of `main.go` and `log/log.go`.

* Package-level state (the logger's `level`, the flag variables) and everything the
  program does to the outside (channel sends, `log.Println`, calls into the libraries)
  live in a `World`: the state is passed explicitly and every outside action is appended
  to `World.events` in program order.
* Results that come from outside the program (the Vault health call, TLS files, the
  listener) are inputs: the health result is the argument `fetch` of `Collect`, the rest
  are the fields of `Env`.
* A Go panic is the `error` side of `Except String`.
* `float64` sample values are `Int`: the program only ever produces the constants 0 and 1.
* The mutex of the logger is not modelled: calls are executed one after the other.
* The functions of the libraries the program calls (`fmt`, `flag`, the Prometheus and Vault
  clients) are not part of the repository; each is modelled as far as the program uses it,
  and says so in its comment. The `init` function, which registers the build-info collector
  of the library before `main` starts, and the timestamp that the standard logger puts in
  front of a message are left out.
-/

namespace VaultExporter

/-! ## Values handed to the formatting functions -/

/-- An operand of a formatting call: the name of its dynamic type and the text that the
verbs `v` and `s` print for it. -/
structure Operand where
  dynType : String
  text : String
deriving DecidableEq, Repr

/-- A Go `string` passed as a formatting operand. -/
def Operand.str (s : String) : Operand := { dynType := "string", text := s }

/-- A non-nil Go `error`: its dynamic type and the text returned by its `Error` method. -/
structure GoError where
  dynType : String
  text : String
deriving DecidableEq, Repr

/-- An error passed as a formatting operand: the verbs `v` and `s` print `Error()`. -/
def GoError.toOperand (e : GoError) : Operand := { dynType := e.dynType, text := e.text }

/-- The tail `type=value, type=value` of the `%!(EXTRA ...)` note of package `fmt`. -/
def fmtExtra : List Operand → List Char
  | [] => []
  | [a] => a.dynType.toList ++ '=' :: a.text.toList
  | a :: b :: rest => a.dynType.toList ++ '=' :: a.text.toList ++ ',' :: ' ' :: fmtExtra (b :: rest)

/-- What `fmt` appends once the format is exhausted: nothing when every operand was used,
the `%!(EXTRA ...)` note otherwise. -/
def fmtEnd (a : List Operand) : List Char :=
  match a with
  | [] => []
  | _ :: _ => "%!(EXTRA ".toList ++ fmtExtra a ++ [')']

/-- Model of the standard library's `fmt.Sprintf` (external to the repository) on the
fragment of directives this program uses: plain text, `%%`, and the verbs `%v` and `%s`
without flags, width, precision or argument index. A missing operand prints
`%!v(MISSING)`, a lone `%` at the end prints `%!(NOVERB)`, unused operands print
`%!(EXTRA ...)`. The result is `none` when the format holds any other directive: such a
text lies outside the model. -/
def doPrintf : List Char → List Operand → Option (List Char)
  | [], a => some (fmtEnd a)
  | c :: rest, a =>
    if c ≠ '%' then (doPrintf rest a).map (c :: ·)
    else
      match rest with
      | [] => some ("%!(NOVERB)".toList ++ fmtEnd a)
      | verb :: rest' =>
        if verb = '%' then (doPrintf rest' a).map ('%' :: ·)
        else if verb = 'v' ∨ verb = 's' then
          match a with
          | [] => (doPrintf rest' []).map (('%' :: '!' :: verb :: "(MISSING)".toList) ++ ·)
          | x :: a' => (doPrintf rest' a').map (x.text.toList ++ ·)
        else none

/-- The function `fmt.Sprintf(format, a...)`, see `doPrintf`. -/
def Sprintf (format : String) (a : List Operand) : Option String :=
  (doPrintf format.toList a).map String.mk

/-! ## The Prometheus client library, as far as the exporter uses it -/

/-- The function `prometheus.BuildFQName` (external library): joins the non-empty parts
with underscores; an empty name gives the empty string. -/
def BuildFQName (ns subsystem name : String) : String :=
  if name = "" then ""
  else if ns ≠ "" ∧ subsystem ≠ "" then ns ++ "_" ++ subsystem ++ "_" ++ name
  else if ns ≠ "" then ns ++ "_" ++ name
  else if subsystem ≠ "" then subsystem ++ "_" ++ name
  else name

/-- A letter or an underscore. -/
def isNameStart (c : Char) : Bool :=
  ('a' ≤ c ∧ c ≤ 'z') ∨ ('A' ≤ c ∧ c ≤ 'Z') ∨ c = '_'

/-- The legacy metric-name rule of the library: `[a-zA-Z_:][a-zA-Z0-9_:]*`. -/
def isValidMetricName (s : String) : Bool :=
  match s.toList with
  | [] => false
  | c :: rest =>
    (isNameStart c || c == ':') && rest.all (fun d => isNameStart d || d == ':' || d.isDigit)

/-- The legacy label-name rule of the library: `[a-zA-Z_][a-zA-Z0-9_]*`, and no leading
double underscore (such names are reserved). -/
def checkLabelName (s : String) : Bool :=
  match s.toList with
  | [] => false
  | c :: rest =>
    isNameStart c && rest.all (fun d => isNameStart d || d.isDigit) &&
      !((['_', '_'] : List Char).isPrefixOf s.toList)

/-- A metric descriptor (`prometheus.Desc`): name, help, variable label names, and the
error recorded by `NewDesc` when the descriptor is invalid. -/
structure Desc where
  fqName : String
  help : String
  variableLabels : List String
  err : Option String
deriving DecidableEq, Repr

/-- The function `prometheus.NewDesc` (external library) for descriptors without constant
labels, as this program builds them: it records an error for an invalid metric name, an
invalid label name or a repeated label name. -/
def NewDesc (fqName help : String) (variableLabels : List String) : Desc :=
  { fqName := fqName
    help := help
    variableLabels := variableLabels
    err :=
      if !isValidMetricName fqName then some "invalid metric name"
      else if !variableLabels.all checkLabelName then some "invalid label name"
      else if !variableLabels.Nodup then some "duplicate label names"
      else none }

/-- The value types of the library (`prometheus.ValueType`). -/
inductive ValueType where
  | CounterValue
  | GaugeValue
  | UntypedValue
deriving DecidableEq, Repr

/-- A constant metric (one sample): its descriptor, value type, value and the label values
in the order they were passed. -/
structure Metric where
  desc : Desc
  valueType : ValueType
  value : Int
  labelValues : List String
deriving DecidableEq, Repr

/-- The label pairs of a sample: the descriptor's variable label names, each with the label
value passed at the same position. -/
def Metric.labelPairs (m : Metric) : List (String × String) :=
  m.desc.variableLabels.zip m.labelValues

/-- The function `prometheus.MustNewConstMetric` (external library): panics when the
descriptor carries an error or when the number of label values is not the number of
variable labels of the descriptor. (The library also rejects label values that are not
valid UTF-8; a `String` here is always well-formed text.) -/
def MustNewConstMetric (desc : Desc) (valueType : ValueType) (value : Int)
    (labelValues : List String) : Except String Metric :=
  match desc.err with
  | some msg => .error msg
  | none =>
    if labelValues.length ≠ desc.variableLabels.length then
      .error "inconsistent label cardinality"
    else
      .ok { desc := desc, valueType := valueType, value := value, labelValues := labelValues }

/-! ## The Vault client library, as far as the exporter uses it -/

/-- The TLS settings handed to `ConfigureTLS` (`vault_api.TLSConfig`, the fields the
program sets). -/
structure TLSConfig where
  CACert : String
  ClientCert : String
  ClientKey : String
  Insecure : Bool
deriving DecidableEq, Repr

/-- A Vault client configuration: the TLS settings applied to the default configuration,
in the order of the `ConfigureTLS` calls. -/
structure VaultConfig where
  tls : List TLSConfig
deriving DecidableEq, Repr

/-- A Vault client (`vault_api.Client`), identified by the configuration it was built from. -/
structure Client where
  config : VaultConfig
deriving DecidableEq, Repr

/-- The health response of Vault (`vault_api.HealthResponse`), the fields the exporter
reads. -/
structure HealthResponse where
  Initialized : Bool
  Sealed : Bool
  Standby : Bool
  Version : String
  ClusterName : String
  ClusterID : String
deriving DecidableEq, Repr

/-! ## Program state and observable actions -/

/-- The flag variables of `main.go`. -/
structure Flags where
  listenAddress : String
  metricsPath : String
  vaultCACert : String
  vaultClientCert : String
  vaultClientKey : String
  sslInsecure : Bool
deriving DecidableEq, Repr

/-- The defaults given in the `flag.String` and `flag.Bool` declarations. -/
def Flags.defaults : Flags :=
  { listenAddress := ":9410"
    metricsPath := "/metrics"
    vaultCACert := ""
    vaultClientCert := ""
    vaultClientKey := ""
    sslInsecure := false }

/-- The actions of the program that are visible outside it, one constructor per call site
kind. -/
inductive Event where
  /-- The call `e.client.Sys().Health()` on the given client. -/
  | health (c : Client)
  /-- A send `ch <- m` on the channel of `Collect`. -/
  | send (m : Metric)
  /-- A send `ch <- d` on the channel of `Describe`. -/
  | describe (d : Desc)
  /-- The call `log.Println(msg)` of the standard logger; `none` is a message whose text
  lies outside the model of `fmt.Sprintf`. -/
  | println (msg : Option String)
  /-- The call `version.Print(program)`; the program does not use what it returns. -/
  | versionPrint (program : String)
  /-- The call `flag.Parse()` on the given arguments (`os.Args[1:]`). -/
  | flagParse (arguments : List String)
  /-- The call `vaultConfig.ConfigureTLS(t)`. -/
  | configureTLS (t : TLSConfig)
  /-- The call `vault_api.NewClient(c)`. -/
  | newClient (c : VaultConfig)
  /-- The call `prometheus.MustRegister(exporter)`. -/
  | mustRegister (c : Client)
  /-- The call `http.Handle(pattern, promhttp.Handler())`. -/
  | handle (pattern : String)
  /-- The call `http.HandleFunc(pattern, ...)`. -/
  | handleFunc (pattern : String)
  /-- The call `http.ListenAndServe(addr, nil)`. -/
  | listenAndServe (addr : String)
deriving DecidableEq, Repr

/-- The state of the process: the logger's `level`, the flag variables, and the actions
performed so far, oldest first. -/
structure World where
  level : Int
  flags : Flags
  events : List Event
deriving DecidableEq, Repr

/-- Append one action to the history. -/
def World.emit (w : World) (ev : Event) : World :=
  { w with events := w.events ++ [ev] }

/-- The samples sent on the `Collect` channel, in order. -/
def samples (evs : List Event) : List Metric :=
  evs.filterMap (fun ev => match ev with | .send m => some m | _ => none)

/-- The descriptors sent on the `Describe` channel, in order. -/
def descriptors (evs : List Event) : List Desc :=
  evs.filterMap (fun ev => match ev with | .describe d => some d | _ => none)

/-- The messages handed to `log.Println`, in order: one log line each. -/
def logLines (evs : List Event) : List (Option String) :=
  evs.filterMap (fun ev => match ev with | .println msg => some msg | _ => none)

/-- The number of log lines written so far. -/
def lineCount (w : World) : Nat :=
  (logLines w.events).length

/-- The clients on which a health fetch was made, in order. -/
def healthCalls (evs : List Event) : List Client :=
  evs.filterMap (fun ev => match ev with | .health c => some c | _ => none)

/-! ## Package `log` (`log/log.go`) -/

/-- Silent is a level that logs nothing. -/
def log.Silent : Int := 0

/-- Error is a level that logs error logs. -/
def log.Error : Int := 1

/-- Info is a level that logs error, and info logs. -/
def log.Info : Int := 2

/-- Debug is a level that logs error, info, and debug logs. -/
def log.Debug : Int := 3

/-- The process state at start: `level = Error`, the flag variables at their defaults,
nothing done yet. -/
def World.init : World :=
  { level := log.Error, flags := Flags.defaults, events := [] }

/-- SetLevel sets the global log level. -/
def log.SetLevel (l : Int) (w : World) : World :=
  { w with level := l }

/-- Infof logs an info message. Nothing happens below level `Info`; otherwise the tag is
put in front of the format, the result is used as the format of the operands when there
are any, and the message goes to `log.Println`. -/
def log.Infof (format : String) (args : List Operand) (w : World) : World :=
  if w.level < log.Info then w
  else
    let msg := Sprintf "INFO: %s" [Operand.str format]
    let msg := if args.length > 0 then msg.bind (fun m => Sprintf m args) else msg
    w.emit (.println msg)

/-- Debugf logs a debug message. -/
def log.Debugf (format : String) (args : List Operand) (w : World) : World :=
  if w.level < log.Debug then w
  else
    let msg := Sprintf "DEBUG: %s" [Operand.str format]
    let msg := if args.length > 0 then msg.bind (fun m => Sprintf m args) else msg
    w.emit (.println msg)

/-- Errorf logs an error message. -/
def log.Errorf (format : String) (args : List Operand) (w : World) : World :=
  if w.level < log.Error then w
  else
    let msg := Sprintf "ERROR: %s" [Operand.str format]
    let msg := if args.length > 0 then msg.bind (fun m => Sprintf m args) else msg
    w.emit (.println msg)

/-! ## Package `main` (`main.go`): descriptors, `Describe`, `Collect` -/

/-- The constant `namespace` of `main.go`. -/
def metricNamespace : String := "vault"

/-- The descriptor `up`. -/
def up : Desc :=
  NewDesc (BuildFQName metricNamespace "" "up") "Was the last query of Vault successful." []

/-- The descriptor `initialized`. -/
def initialized : Desc :=
  NewDesc (BuildFQName metricNamespace "" "initialized")
    "Is the Vault initialised (according to this node)." []

/-- The descriptor `sealed`. -/
def sealed : Desc :=
  NewDesc (BuildFQName metricNamespace "" "sealed") "Is the Vault node sealed." []

/-- The descriptor `standby`. -/
def standby : Desc :=
  NewDesc (BuildFQName metricNamespace "" "standby") "Is this Vault node in standby." []

/-- The descriptor `info`. -/
def info : Desc :=
  NewDesc (BuildFQName metricNamespace "" "info") "Version of this Vault node."
    ["version", "cluster_name", "cluster_id"]

/-- Exporter collects Vault health from the given server. -/
structure Exporter where
  client : Client
deriving DecidableEq, Repr

/-- Describe describes all the metrics ever exported by the Vault exporter. -/
def Describe (_e : Exporter) (w : World) : World :=
  let w := w.emit (.describe up)
  let w := w.emit (.describe initialized)
  let w := w.emit (.describe sealed)
  let w := w.emit (.describe standby)
  let w := w.emit (.describe info)
  w

/-- The function `bool2float`. -/
def bool2float (b : Bool) : Int :=
  if b then 1 else 0

/-- Collect fetches the stats from configured Vault and delivers them as Prometheus
metrics. `fetch` is what the call `e.client.Sys().Health()` returned. -/
def Collect (e : Exporter) (fetch : Except GoError HealthResponse) (w : World) :
    Except String World :=
  let w := w.emit (.health e.client)
  match fetch with
  | .error err => do
    let m ← MustNewConstMetric up .GaugeValue 0 []
    let w := w.emit (.send m)
    let w := log.Errorf "Failed to collect health from Vault server: %v" [err.toOperand] w
    return w
  | .ok health => do
    let m ← MustNewConstMetric up .GaugeValue 1 []
    let w := w.emit (.send m)
    let m ← MustNewConstMetric initialized .GaugeValue (bool2float health.Initialized) []
    let w := w.emit (.send m)
    let m ← MustNewConstMetric sealed .GaugeValue (bool2float health.Sealed) []
    let w := w.emit (.send m)
    let m ← MustNewConstMetric standby .GaugeValue (bool2float health.Standby) []
    let w := w.emit (.send m)
    let m ← MustNewConstMetric info .GaugeValue 1
      [health.Version, health.ClusterName, health.ClusterID]
    let w := w.emit (.send m)
    return w

/-! ## The standard library's `flag` package, for the six flags of `main.go` -/

/-- How `flag.Parse` ends the process instead of returning: the command line uses the
`ExitOnError` policy, so a request for help or a parse error exits. -/
inductive FlagExit where
  | help
  | bad (reason : String)
deriving DecidableEq, Repr

/-- The function `strconv.ParseBool`, which sets a boolean flag from a text. -/
def parseBool (s : String) : Option Bool :=
  if s ∈ ["1", "t", "T", "TRUE", "true", "True"] then some true
  else if s ∈ ["0", "f", "F", "FALSE", "false", "False"] then some false
  else none

/-- What one command-line argument is to the flag parser. -/
inductive ArgKind where
  /-- Not a flag: parsing stops, the argument stays. -/
  | positional
  /-- The argument `--`: parsing stops, the argument is dropped. -/
  | terminator
  /-- Dashes followed by nothing usable. -/
  | badSyntax
  /-- A flag, with the value given after `=` when there is one. -/
  | flag (name : String) (value : Option String)
deriving DecidableEq, Repr

/-- Split `name=value` at the first `=` that is not the first character. -/
def splitFlagName (name : List Char) : ArgKind :=
  match name with
  | [] => .badSyntax
  | c :: rest =>
    if c = '-' ∨ c = '=' then .badSyntax
    else
      match rest.span (· ≠ '=') with
      | (_, []) => .flag (String.mk name) none
      | (pre, _ :: value) => .flag (String.mk (c :: pre)) (some (String.mk value))

/-- The first part of `parseOne` of the `flag` package: fewer than two characters or no
leading dash is a positional argument; one or two dashes start a flag; `--` alone ends the
flags. -/
def classifyArg (s : String) : ArgKind :=
  match s.toList with
  | '-' :: c :: rest =>
    if c = '-' then
      if rest = [] then .terminator else splitFlagName rest
    else splitFlagName (c :: rest)
  | _ => .positional

/-- The command-line names of the five string flags of `main.go`. -/
def stringFlagNames : List String :=
  ["web.listen-address", "web.telemetry-path", "vault-tls-cacert", "vault-tls-client-cert",
    "vault-tls-client-key"]

/-- Assign a string flag of `main.go` by its command-line name. -/
def setStringFlag (fl : Flags) (name value : String) : Flags :=
  if name = "web.listen-address" then { fl with listenAddress := value }
  else if name = "web.telemetry-path" then { fl with metricsPath := value }
  else if name = "vault-tls-cacert" then { fl with vaultCACert := value }
  else if name = "vault-tls-client-cert" then { fl with vaultClientCert := value }
  else if name = "vault-tls-client-key" then { fl with vaultClientKey := value }
  else fl

/-- The loop of `flag.Parse` over `os.Args[1:]` for the flag set declared in `main.go`:
returns the flag variables after parsing and the remaining (positional) arguments, or the
way the process exits. An undefined name is a request for help when it is `help` or `h`
and an error otherwise; the boolean flag takes a value only with `=`; a string flag takes
it after `=` or from the next argument. -/
def parseArgs : List String → Flags → Except FlagExit (Flags × List String)
  | [], fl => .ok (fl, [])
  | s :: rest, fl =>
    match classifyArg s with
    | .positional => .ok (fl, s :: rest)
    | .terminator => .ok (fl, rest)
    | .badSyntax => .error (.bad "bad flag syntax")
    | .flag name value =>
      if name ≠ "insecure-ssl" ∧ name ∉ stringFlagNames then
        if name = "help" ∨ name = "h" then .error .help
        else .error (.bad "flag provided but not defined")
      else if name = "insecure-ssl" then
        match value with
        | none => parseArgs rest { fl with sslInsecure := true }
        | some v =>
          match parseBool v with
          | some b => parseArgs rest { fl with sslInsecure := b }
          | none => .error (.bad "invalid boolean value")
      else
        match value with
        | some v => parseArgs rest (setStringFlag fl name v)
        | none =>
          match rest with
          | v :: rest' => parseArgs rest' (setStringFlag fl name v)
          | [] => .error (.bad "flag needs an argument")

/-- The positional arguments of a process argument list: what `flag.Args()` holds after
`flag.Parse()`, and nothing when parsing exits. -/
def positionalArgs (osArgs : List String) : List String :=
  match parseArgs (osArgs.drop 1) Flags.defaults with
  | .ok (_, rest) => rest
  | .error _ => []

/-! ## Package `main` (`main.go`): `NewExporter`, `mainE` -/

/-- The answers of the outside world to the calls of `NewExporter` and `mainE`. -/
structure Env where
  /-- The text `version.Info()`. -/
  versionInfo : String
  /-- The text `version.BuildContext()`. -/
  buildContext : String
  /-- The error of `vaultConfig.ConfigureTLS(t)`, if any (unreadable or malformed files). -/
  configureTLS : VaultConfig → TLSConfig → Option GoError
  /-- The error of `vault_api.NewClient(c)`, if any. -/
  newClient : VaultConfig → Option GoError
  /-- The function `microerror.Mask`. -/
  mask : GoError → GoError
  /-- The panic of `http.Handle` or `http.HandleFunc` for a pattern, given the patterns
  registered before, if any (an empty or repeated pattern). -/
  handlePanic : List String → String → Option String
  /-- The error `http.ListenAndServe(addr, nil)` returns when it returns. -/
  listenAndServe : String → Option GoError

/-- The configuration `vault_api.DefaultConfig()`: no TLS settings applied yet. -/
def DefaultConfig : VaultConfig := { tls := [] }

/-- One call `vaultConfig.ConfigureTLS(t)`: the call is recorded; it fails with the
error of the outside world or yields the configuration with `t` applied. -/
def ConfigureTLS (env : Env) (c : VaultConfig) (t : TLSConfig) (w : World) :
    World × Except GoError VaultConfig :=
  let w := w.emit (.configureTLS t)
  match env.configureTLS c t with
  | some err => (w, .error err)
  | none => (w, .ok { tls := c.tls ++ [t] })

/-- NewExporter returns an initialized Exporter. Each `if` block either calls
`ConfigureTLS` or leaves the configuration as it is; an error of the call is returned
masked. The error of `NewClient` is returned as it is. -/
def NewExporter (env : Env) (w : World) : World × Except GoError Exporter :=
  let vaultConfig := DefaultConfig
  match (if w.flags.sslInsecure then
      ConfigureTLS env vaultConfig
        { CACert := "", ClientCert := "", ClientKey := "", Insecure := true } w
    else (w, .ok vaultConfig)) with
  | (w, .error err) => (w, .error (env.mask err))
  | (w, .ok vaultConfig) =>
    match (if w.flags.vaultCACert ≠ "" ∨ w.flags.vaultClientCert ≠ "" ∨
          w.flags.vaultClientKey ≠ "" then
        ConfigureTLS env vaultConfig
          { CACert := w.flags.vaultCACert
            ClientCert := w.flags.vaultClientCert
            ClientKey := w.flags.vaultClientKey
            Insecure := w.flags.sslInsecure } w
      else (w, .ok vaultConfig)) with
    | (w, .error err) => (w, .error (env.mask err))
    | (w, .ok vaultConfig) =>
      let w := w.emit (.newClient vaultConfig)
      match env.newClient vaultConfig with
      | some err => (w, .error err)
      | none => (w, .ok { client := { config := vaultConfig } })

/-- The call `prometheus.MustRegister(exporter)`: the registry asks the collector for its
descriptors through `Describe` and panics when one of them carries an error or two of
them share a name. -/
def MustRegister (e : Exporter) (w : World) : World × Option String :=
  let w := w.emit (.mustRegister e.client)
  let w' := Describe e w
  let ds := descriptors (w'.events.drop w.events.length)
  if ds.any (fun d => d.err.isSome) then (w', some "descriptor is invalid")
  else if !(ds.map (·.fqName)).Nodup then (w', some "duplicate metrics collector registration")
  else (w', none)

/-- How `mainE` ends. -/
inductive Outcome where
  /-- It returns the given error, or nil. -/
  | returned (err : Option GoError)
  /-- The process exits inside `flag.Parse`. -/
  | exited (how : FlagExit)
  /-- A panic. -/
  | panicked (msg : String)
deriving DecidableEq, Repr

/-- The function `mainE`, run on the process arguments `os.Args`. The handler closure
passed to `http.HandleFunc` only runs inside the server and is not part of the model. -/
def mainE (env : Env) (osArgs : List String) (w : World) : World × Outcome :=
  if osArgs.length > 1 ∧ osArgs.get? 1 = some "version" then
    let w := w.emit (.versionPrint "vault_exporter")
    (w, .returned none)
  else
    match osArgs with
    | [] => (w, .panicked "slice bounds out of range")
    | _ :: arguments =>
      let w := w.emit (.flagParse arguments)
      match parseArgs arguments w.flags with
      | .error how => (w, .exited how)
      | .ok (fl, _) =>
        let w := { w with flags := fl }
        let w := log.Infof "Starting vault_exporter" [Operand.str env.versionInfo] w
        let w := log.Infof "Build context" [Operand.str env.buildContext] w
        match NewExporter env w with
        | (w, .error err) => (w, .returned (some (env.mask err)))
        | (w, .ok exporter) =>
          match MustRegister exporter w with
          | (w, some msg) => (w, .panicked msg)
          | (w, none) =>
            let w := w.emit (.handle w.flags.metricsPath)
            match env.handlePanic [] w.flags.metricsPath with
            | some msg => (w, .panicked msg)
            | none =>
              let w := w.emit (.handleFunc "/")
              match env.handlePanic [w.flags.metricsPath] "/" with
              | some msg => (w, .panicked msg)
              | none =>
                let w := log.Infof "Listening on" [Operand.str w.flags.listenAddress] w
                let w := w.emit (.listenAndServe w.flags.listenAddress)
                match env.listenAndServe w.flags.listenAddress with
                | some err => (w, .returned (some (env.mask err)))
                | none => (w, .returned none)

/-! ## Runs: successive scrapes, and arbitrary sequences of calls -/

/-- The samples one `Collect` call sends on its channel when started in state `w`: the
samples among the actions the call adds to the history (none when the call panics). -/
def emitted (e : Exporter) (fetch : Except GoError HealthResponse) (w : World) : List Metric :=
  match Collect e fetch w with
  | .ok w' => samples (w'.events.drop w.events.length)
  | .error _ => []

/-- The values of the samples with the given metric name, in order. -/
def valuesOf (name : String) (ms : List Metric) : List Int :=
  (ms.filter (fun m => m.desc.fqName = name)).map (·.value)

/-- Successive scrapes on one exporter: `Collect` runs once per fetch result, each call on
the state the previous one left. Returns, per call, the samples that call sent, and the
final state. -/
def collectCycles (e : Exporter) :
    List (Except GoError HealthResponse) → World → Except String (List (List Metric) × World)
  | [], w => .ok ([], w)
  | fetch :: rest, w =>
    match Collect e fetch w with
    | .error msg => .error msg
    | .ok w' =>
      match collectCycles e rest w' with
      | .error msg => .error msg
      | .ok (outs, wEnd) => .ok (samples (w'.events.drop w.events.length) :: outs, wEnd)

/-- One call into the program. -/
inductive Call where
  | main (env : Env) (osArgs : List String)
  | newExporter (env : Env)
  | describe (e : Exporter)
  | collect (e : Exporter) (fetch : Except GoError HealthResponse)

/-- The state after one call; a panicking `Collect` leaves the state as it was. -/
def Call.exec (c : Call) (w : World) : World :=
  match c with
  | .main env osArgs => (mainE env osArgs w).1
  | .newExporter env => (NewExporter env w).1
  | .describe e => Describe e w
  | .collect e fetch =>
    match Collect e fetch w with
    | .ok w' => w'
    | .error _ => w

/-- The state after a sequence of calls, executed in order. -/
def run (calls : List Call) (w : World) : World :=
  calls.foldl (fun acc c => c.exec acc) w

/-- An environment in which every outside call succeeds, except that the listener
eventually stops with an error. -/
def sampleEnv : Env :=
  { versionInfo := "(version=0.1.0, branch=master, revision=abc)"
    buildContext := "(go=go1.12, user=ci, date=20190101)"
    configureTLS := fun _ _ => none
    newClient := fun _ => none
    mask := fun err => err
    handlePanic := fun registered pattern =>
      if pattern = "" ∨ pattern ∈ registered then some "http: invalid or repeated pattern"
      else none
    listenAndServe := fun _ => some { dynType := "*net.OpError", text := "use of closed network connection" } }

/-! ## The descriptors are valid, and `Collect` in closed form -/

/-- The five descriptors of `main.go` pass the checks of `NewDesc`. -/
theorem descriptors_valid :
    [up, initialized, sealed, standby, info].map (fun d => d.err) =
      [none, none, none, none, none] := by
  decide

/-- The closed form of a successful cycle: the health call and the five sends. -/
theorem Collect_ok_eq (e : Exporter) (h : HealthResponse) (w : World) :
    Collect e (.ok h) w = .ok { w with events := w.events ++
      [ .health e.client,
        .send { desc := up, valueType := .GaugeValue, value := 1, labelValues := [] },
        .send { desc := initialized, valueType := .GaugeValue, value := bool2float h.Initialized, labelValues := [] },
        .send { desc := sealed, valueType := .GaugeValue, value := bool2float h.Sealed, labelValues := [] },
        .send { desc := standby, valueType := .GaugeValue, value := bool2float h.Standby, labelValues := [] },
        .send { desc := info, valueType := .GaugeValue, value := 1,
                labelValues := [h.Version, h.ClusterName, h.ClusterID] } ] } := by
  simp [Collect, World.emit]
  rfl

/-! ## Formatting of the log messages -/

theorem doPrintf_plain_cons (c : Char) (hc : c ≠ '%') (rest : List Char) (a : List Operand) :
    doPrintf (c :: rest) a = (doPrintf rest a).map (c :: ·) := by
  rw [doPrintf.eq_def]
  simp [hc]

/-- A text without percent signs is copied. -/
theorem doPrintf_plain_append (p : List Char) (hp : ∀ c ∈ p, c ≠ '%') (rest : List Char)
    (a : List Operand) :
    doPrintf (p ++ rest) a = (doPrintf rest a).map (p ++ ·) := by
  induction p with
  | nil => simp
  | cons c p ih =>
    have hc : c ≠ '%' := hp c (by simp)
    have ih' := ih (fun d hd => hp d (by simp [hd]))
    rw [List.cons_append, doPrintf_plain_cons c hc, ih']
    simp [Option.map_map, Function.comp_def]

/-- The directive `%v` at the end of a format prints the text of its operand. -/
theorem doPrintf_verb_v (x : Operand) : doPrintf ['%', 'v'] [x] = some x.text.toList := by
  simp [doPrintf, fmtEnd]

/-- The directive `%s` at the end of a format prints the text of its operand. -/
theorem doPrintf_verb_s (x : Operand) : doPrintf ['%', 's'] [x] = some x.text.toList := by
  simp [doPrintf, fmtEnd]

/-- Putting a tag in front of a format: `Sprintf(tag + "%s", format)` is the tag followed by the format. -/
theorem Sprintf_tag (tag : String) (htag : ∀ c ∈ tag.toList, c ≠ '%') (f : String) :
    Sprintf (tag ++ "%s") [Operand.str f] = some (tag ++ f) := by
  have h : (tag ++ "%s").toList = tag.toList ++ ['%', 's'] := by simp
  simp only [Sprintf, h, doPrintf_plain_append _ htag, doPrintf_verb_s]
  simp [Operand.str]
  rfl

/-- The first `Sprintf` of `Errorf`. -/
theorem Sprintf_tag_error (f : String) :
    Sprintf "ERROR: %s" [Operand.str f] = some ("ERROR: " ++ f) :=
  Sprintf_tag "ERROR: " (by decide) f

/-- The second `Sprintf` of `Errorf` on the format of `Collect`. -/
theorem Sprintf_collect_failure (x : Operand) :
    Sprintf "ERROR: Failed to collect health from Vault server: %v" [x] =
      some ("ERROR: Failed to collect health from Vault server: " ++ x.text) := by
  have h : "ERROR: Failed to collect health from Vault server: %v".toList =
      "ERROR: Failed to collect health from Vault server: ".toList ++ ['%', 'v'] := rfl
  simp only [Sprintf, h,
    doPrintf_plain_append "ERROR: Failed to collect health from Vault server: ".toList (by decide),
    doPrintf_verb_v]
  simp only [Option.map_some']
  rfl

/-- The `Errorf` call of `Collect` at level `Error` writes the ERROR line. -/
theorem Errorf_collect_failure (err : GoError) (fl : Flags) (evs : List Event) :
    log.Errorf "Failed to collect health from Vault server: %v" [err.toOperand]
        { level := log.Error, flags := fl, events := evs } =
      { level := log.Error, flags := fl, events := evs ++
          [.println (some ("ERROR: Failed to collect health from Vault server: " ++ err.text))] } := by
  simp [log.Errorf, Sprintf_tag_error, Sprintf_collect_failure, World.emit, GoError.toOperand]

/-! ## The samples of one `Collect` call -/

theorem Collect_error_eq (e : Exporter) (err : GoError) (w : World) :
    Collect e (.error err) w =
      .ok (log.Errorf "Failed to collect health from Vault server: %v" [err.toOperand]
        ((w.emit (.health e.client)).emit
          (.send { desc := up, valueType := .GaugeValue, value := 0, labelValues := [] }))) := by
  simp [Collect]
  rfl

/-- The function `Errorf` only appends `log.Println` calls to the history. -/
theorem Errorf_events (f : String) (a : List Operand) (w : World) :
    ∃ lines : List (Option String), (log.Errorf f a w) = { w with events := w.events ++ lines.map Event.println } := by
  unfold log.Errorf
  split
  · exact ⟨[], by simp⟩
  · exact ⟨[_], by simp only [World.emit]; rfl⟩

/-- The samples of a successful cycle, from any state. -/
theorem emitted_ok (e : Exporter) (h : HealthResponse) (w : World) :
    emitted e (.ok h) w =
      [ { desc := up, valueType := .GaugeValue, value := 1, labelValues := [] },
        { desc := initialized, valueType := .GaugeValue, value := bool2float h.Initialized,
          labelValues := [] },
        { desc := sealed, valueType := .GaugeValue, value := bool2float h.Sealed,
          labelValues := [] },
        { desc := standby, valueType := .GaugeValue, value := bool2float h.Standby,
          labelValues := [] },
        { desc := info, valueType := .GaugeValue, value := 1,
          labelValues := [h.Version, h.ClusterName, h.ClusterID] } ] := by
  simp [emitted, Collect_ok_eq, samples]

/-- The samples of a failed cycle, from any state. -/
theorem emitted_error (e : Exporter) (err : GoError) (w : World) :
    emitted e (.error err) w =
      [ { desc := up, valueType := .GaugeValue, value := 0, labelValues := [] } ] := by
  obtain ⟨lines, hl⟩ := Errorf_events "Failed to collect health from Vault server: %v"
    [err.toOperand] ((w.emit (.health e.client)).emit
          (.send { desc := up, valueType := .GaugeValue, value := 0, labelValues := [] }))
  simp only [emitted, Collect_error_eq, hl]
  simp [World.emit, samples]

/-- The closed form of a failed cycle at level `Error`. -/
theorem Collect_failure_eq_at_error (e : Exporter) (err : GoError) (w : World)
    (hw : w.level = log.Error) :
    Collect e (.error err) w = .ok { w with events := w.events ++
      [ .health e.client,
        .send { desc := up, valueType := .GaugeValue, value := 0, labelValues := [] },
        .println (some ("ERROR: Failed to collect health from Vault server: " ++ err.text)) ] } := by
  obtain ⟨l, fl, evs⟩ := w
  simp only at hw
  subst hw
  rw [Collect_error_eq]
  simp only [World.emit]
  rw [Errorf_collect_failure]
  simp

/-! ## Claims on one `Collect` call -/

/-- C1: for every successful health response, `Collect` returns normally and sends exactly
five samples, in the order `vault_up`, `vault_initialized`, `vault_sealed`, `vault_standby`,
`vault_info`; the `vault_up` sample has value 1. -/
theorem Collect_success_five_samples (e : Exporter) (h : HealthResponse) (w : World) :
    (∃ w', Collect e (.ok h) w = .ok w') ∧
    emitted e (.ok h) w =
      [ { desc := up, valueType := .GaugeValue, value := 1, labelValues := [] },
        { desc := initialized, valueType := .GaugeValue, value := bool2float h.Initialized,
          labelValues := [] },
        { desc := sealed, valueType := .GaugeValue, value := bool2float h.Sealed,
          labelValues := [] },
        { desc := standby, valueType := .GaugeValue, value := bool2float h.Standby,
          labelValues := [] },
        { desc := info, valueType := .GaugeValue, value := 1,
          labelValues := [h.Version, h.ClusterName, h.ClusterID] } ] ∧
    (emitted e (.ok h) w).length = 5 ∧
    (emitted e (.ok h) w).map (fun m => m.desc.fqName) =
      ["vault_up", "vault_initialized", "vault_sealed", "vault_standby", "vault_info"] ∧
    valuesOf "vault_up" (emitted e (.ok h) w) = [1] := by
  refine ⟨⟨_, Collect_ok_eq e h w⟩, emitted_ok e h w, ?_, ?_, ?_⟩
  · rw [emitted_ok]; rfl
  · rw [emitted_ok]; rfl
  · rw [emitted_ok]; rfl

/-- C1, the example of the specification: the response with `initialized` true, `sealed`
and `standby` false, version 1.2.3, cluster name c1 and cluster id abc gives the five
samples with values 1, 1, 0, 0, 1 and the three labels on `vault_info`. -/
theorem Collect_success_example :
    (emitted { client := { config := DefaultConfig } }
        (.ok { Initialized := true, Sealed := false, Standby := false,
               Version := "1.2.3", ClusterName := "c1", ClusterID := "abc" }) World.init).map
      (fun m => (m.desc.fqName, m.labelPairs, m.value)) =
      [ ("vault_up", [], 1), ("vault_initialized", [], 1), ("vault_sealed", [], 0),
        ("vault_standby", [], 0),
        ("vault_info", [("version", "1.2.3"), ("cluster_name", "c1"), ("cluster_id", "abc")], 1) ] := by
  rw [(Collect_success_five_samples _ _ _).2.1]
  rfl

/-- C2: for every fetch error, `Collect` returns normally and sends exactly one sample,
`vault_up` with value 0; no sample of that call is named `vault_initialized`,
`vault_sealed`, `vault_standby` or `vault_info`. -/
theorem Collect_failure_single_sample (e : Exporter) (err : GoError) (w : World) :
    (∃ w', Collect e (.error err) w = .ok w') ∧
    emitted e (.error err) w =
      [ { desc := up, valueType := .GaugeValue, value := 0, labelValues := [] } ] ∧
    (emitted e (.error err) w).length = 1 ∧
    (emitted e (.error err) w).map (fun m => (m.desc.fqName, m.value)) = [("vault_up", 0)] ∧
    (∀ m ∈ emitted e (.error err) w,
      m.desc.fqName ∉ ["vault_initialized", "vault_sealed", "vault_standby", "vault_info"]) := by
  refine ⟨⟨_, Collect_error_eq e err w⟩, emitted_error e err w, ?_, ?_, ?_⟩
  · rw [emitted_error]; rfl
  · rw [emitted_error]; rfl
  · rw [emitted_error]
    intro m hm
    rw [List.mem_singleton] at hm
    subst hm
    decide

/-- C2, the example of the specification: a connection-refused error gives the single
sample `vault_up 0`. -/
theorem Collect_failure_example :
    (emitted { client := { config := DefaultConfig } }
        (.error { dynType := "*url.Error",
                  text := "dial tcp 127.0.0.1:8200: connect: connection refused" })
        World.init).map (fun m => (m.desc.fqName, m.labelPairs, m.value)) =
      [("vault_up", [], 0)] := by
  rw [(Collect_failure_single_sample _ _ _).2.1]
  rfl

/-- C3: for every successful health response the values of the `vault_initialized`,
`vault_sealed` and `vault_standby` samples are `bool2float` of the fields `Initialized`,
`Sealed` and `Standby`; `bool2float` maps true to 1 and false to 0, so each value is 0 or
1, and it is 1 exactly when the field is true. -/
theorem Collect_boolean_samples (e : Exporter) (h : HealthResponse) (w : World) :
    valuesOf "vault_initialized" (emitted e (.ok h) w) = [bool2float h.Initialized] ∧
    valuesOf "vault_sealed" (emitted e (.ok h) w) = [bool2float h.Sealed] ∧
    valuesOf "vault_standby" (emitted e (.ok h) w) = [bool2float h.Standby] ∧
    bool2float true = 1 ∧ bool2float false = 0 ∧
    (∀ b : Bool, (bool2float b = 0 ∨ bool2float b = 1) ∧ (bool2float b = 1 ↔ b = true)) := by
  refine ⟨?_, ?_, ?_, rfl, rfl, ?_⟩
  · rw [emitted_ok]; rfl
  · rw [emitted_ok]; rfl
  · rw [emitted_ok]; rfl
  · intro b
    cases b <;> simp [bool2float]

/-- C4: for every successful health response the `vault_info` sample has value 1 and
carries the strings `Version`, `ClusterName`, `ClusterID` unchanged as the values of the
labels `version`, `cluster_name`, `cluster_id`, in this order; replacing the three strings
of a response changes nothing in the samples but these label values. -/
theorem Collect_info_sample (e : Exporter) (h : HealthResponse) (w : World) :
    (emitted e (.ok h) w).filter (fun m => m.desc.fqName = "vault_info") =
      [ { desc := info, valueType := .GaugeValue, value := 1,
          labelValues := [h.Version, h.ClusterName, h.ClusterID] } ] ∧
    valuesOf "vault_info" (emitted e (.ok h) w) = [1] ∧
    ((emitted e (.ok h) w).filter (fun m => m.desc.fqName = "vault_info")).map Metric.labelPairs =
      [[("version", h.Version), ("cluster_name", h.ClusterName), ("cluster_id", h.ClusterID)]] ∧
    (∀ v n i : String,
      (emitted e (.ok { h with Version := v, ClusterName := n, ClusterID := i }) w).map
          (fun m => (m.desc, m.valueType, m.value)) =
        (emitted e (.ok h) w).map (fun m => (m.desc, m.valueType, m.value)) ∧
      (emitted e (.ok { h with Version := v, ClusterName := n, ClusterID := i }) w).map
          (fun m => m.labelValues) = [[], [], [], [], [v, n, i]]) := by
  refine ⟨?_, ?_, ?_, ?_⟩
  · rw [emitted_ok]; rfl
  · rw [emitted_ok]; rfl
  · rw [emitted_ok]; rfl
  · intro v n i
    rw [emitted_ok, emitted_ok]
    exact ⟨rfl, rfl⟩

/-- C4 with empty strings: the `vault_info` sample still has value 1, and its three labels
are empty. -/
theorem Collect_info_sample_empty :
    ((emitted { client := { config := DefaultConfig } }
        (.ok { Initialized := false, Sealed := true, Standby := false,
               Version := "", ClusterName := "", ClusterID := "" }) World.init).filter
        (fun m => m.desc.fqName = "vault_info")).map (fun m => (m.labelPairs, m.value)) =
      [([("version", ""), ("cluster_name", ""), ("cluster_id", "")], 1)] := by
  rw [(Collect_info_sample _ _ _).1]
  rfl

/-! ## Successive calls, `Describe`, and the log line of a failed fetch -/

theorem Collect_returns (e : Exporter) (fetch : Except GoError HealthResponse) (w : World) :
    ∃ w', Collect e fetch w = .ok w' := by
  cases fetch with
  | error err => exact ⟨_, Collect_error_eq e err w⟩
  | ok h => exact ⟨_, Collect_ok_eq e h w⟩

/-- The samples of a cycle do not depend on the state it starts in. -/
theorem emitted_any_state (e : Exporter) (fetch : Except GoError HealthResponse) (w w0 : World) :
    emitted e fetch w = emitted e fetch w0 := by
  cases fetch with
  | error err => rw [emitted_error, emitted_error]
  | ok h => rw [emitted_ok, emitted_ok]

/-- Successive cycles all return, each with the samples of its own fetch result. -/
theorem collectCycles_eq (e : Exporter) (fetches : List (Except GoError HealthResponse))
    (w : World) :
    ∃ wEnd, collectCycles e fetches w =
      .ok (fetches.map (fun fetch => emitted e fetch World.init), wEnd) := by
  induction fetches generalizing w with
  | nil => exact ⟨w, rfl⟩
  | cons fetch rest ih =>
    obtain ⟨w', hw'⟩ := Collect_returns e fetch w
    obtain ⟨wEnd, hEnd⟩ := ih w'
    refine ⟨wEnd, ?_⟩
    have hem : emitted e fetch w = samples (w'.events.drop w.events.length) := by
      simp [emitted, hw']
    simp only [collectCycles, hw', hEnd, List.map_cons, ← hem, emitted_any_state e fetch w World.init]

/-- C5: successive `Collect` calls are independent: for every sequence of fetch results
and every starting state, the calls all return and the samples of the k-th call are the
samples `Collect` sends for the k-th fetch result alone in a fresh process; a failure
followed by a success gives, for the second call, the five samples with `vault_up` 1 and
no `vault_up` 0. -/
theorem collectCycles_independent (e : Exporter)
    (fetches : List (Except GoError HealthResponse)) (w : World) :
    (∃ outs wEnd, collectCycles e fetches w = .ok (outs, wEnd) ∧
      outs = fetches.map (fun fetch => emitted e fetch World.init) ∧
      ∀ k : Nat, outs[k]? = fetches[k]?.map (fun fetch => emitted e fetch World.init)) ∧
    (∀ (err : GoError) (h : HealthResponse),
      ∃ first second wEnd, collectCycles e [.error err, .ok h] w = .ok ([first, second], wEnd) ∧
        second =
          [ { desc := up, valueType := .GaugeValue, value := 1, labelValues := [] },
            { desc := initialized, valueType := .GaugeValue,
              value := bool2float h.Initialized, labelValues := [] },
            { desc := sealed, valueType := .GaugeValue, value := bool2float h.Sealed,
              labelValues := [] },
            { desc := standby, valueType := .GaugeValue, value := bool2float h.Standby,
              labelValues := [] },
            { desc := info, valueType := .GaugeValue, value := 1,
              labelValues := [h.Version, h.ClusterName, h.ClusterID] } ] ∧
        valuesOf "vault_up" second = [1] ∧
        second = emitted e (.ok h) World.init) := by
  constructor
  · obtain ⟨wEnd, hEnd⟩ := collectCycles_eq e fetches w
    exact ⟨_, wEnd, hEnd, rfl, fun k => by simp⟩
  · intro err h
    obtain ⟨wEnd, hEnd⟩ := collectCycles_eq e [.error err, .ok h] w
    refine ⟨_, _, wEnd, hEnd, ?_, ?_, rfl⟩
    · exact emitted_ok e h World.init
    · show valuesOf "vault_up" (emitted e (.ok h) World.init) = [1]
      rw [emitted_ok]; rfl

/-- C6: `Describe` sends exactly five descriptors, in the order `up`, `initialized`,
`sealed`, `standby`, `info`, named `vault_up`, `vault_initialized`, `vault_sealed`,
`vault_standby`, `vault_info`; only `info` has variable labels, `version`, `cluster_name`,
`cluster_id`. What it sends is the same for every exporter and every state, and it makes
no health fetch and sends no sample. -/
theorem Describe_fixed_descriptors (e : Exporter) (w : World) :
    Describe e w = { w with events := w.events ++
      [.describe up, .describe initialized, .describe sealed, .describe standby,
        .describe info] } ∧
    descriptors ((Describe e w).events.drop w.events.length) =
      [up, initialized, sealed, standby, info] ∧
    [up, initialized, sealed, standby, info].map (fun d => d.fqName) =
      ["vault_up", "vault_initialized", "vault_sealed", "vault_standby", "vault_info"] ∧
    [up, initialized, sealed, standby, info].map (fun d => d.variableLabels) =
      [[], [], [], [], ["version", "cluster_name", "cluster_id"]] ∧
    healthCalls ((Describe e w).events.drop w.events.length) = [] ∧
    samples ((Describe e w).events.drop w.events.length) = [] ∧
    (∀ (e' : Exporter) (w' : World),
      (Describe e' w').events.drop w'.events.length =
        (Describe e w).events.drop w.events.length) := by
  have hD : ∀ (e : Exporter) (w : World), (Describe e w).events.drop w.events.length =
      [.describe up, .describe initialized, .describe sealed, .describe standby,
        .describe info] := by
    intro e w
    simp [Describe, World.emit]
  refine ⟨?_, ?_, rfl, rfl, ?_, ?_, ?_⟩
  · simp [Describe, World.emit]
  · rw [hD]; rfl
  · rw [hD]; rfl
  · rw [hD]; rfl
  · intro e' w'
    rw [hD, hD]

/-- C7: on a fetch error `Collect` makes one call to `log.Errorf`, with the format
`Failed to collect health from Vault server: %v` and the error as operand, after sending
the `vault_up` 0 sample; at level `Error` this writes one line, `ERROR: Failed to collect
health from Vault server: ` followed by the text of the error. On a successful fetch
`Collect` writes no log line, at any level. -/
theorem Collect_failure_logged (e : Exporter) (err : GoError) (w : World) :
    Collect e (.error err) w =
      .ok (log.Errorf "Failed to collect health from Vault server: %v" [err.toOperand]
        ((w.emit (.health e.client)).emit
          (.send { desc := up, valueType := .GaugeValue, value := 0, labelValues := [] }))) ∧
    (∀ (fl : Flags) (evs : List Event),
      Collect e (.error err) { level := log.Error, flags := fl, events := evs } =
        .ok { level := log.Error, flags := fl, events := evs ++
          [ .health e.client,
            .send { desc := up, valueType := .GaugeValue, value := 0, labelValues := [] },
            .println (some ("ERROR: Failed to collect health from Vault server: " ++ err.text)) ] }) ∧
    (∀ h : HealthResponse, ∃ w', Collect e (.ok h) w = .ok w' ∧
      logLines (w'.events.drop w.events.length) = []) := by
  refine ⟨Collect_error_eq e err w, ?_, ?_⟩
  · intro fl evs
    rw [Collect_error_eq]
    simp only [World.emit]
    rw [Errorf_collect_failure]
    simp
  · intro h
    refine ⟨_, Collect_ok_eq e h w, ?_⟩
    simp [logLines]

/-- C7, an example: at the initial level a connection-refused error leaves exactly the
health call, the `vault_up` 0 sample and one ERROR line in the history. -/
theorem Collect_failure_logged_example :
    Collect { client := { config := DefaultConfig } }
        (.error { dynType := "*url.Error", text := "connection refused" }) World.init =
      .ok { level := log.Error, flags := Flags.defaults, events :=
        [ .health { config := DefaultConfig },
          .send { desc := up, valueType := .GaugeValue, value := 0, labelValues := [] },
          .println (some "ERROR: Failed to collect health from Vault server: connection refused") ] } := by
  have h := (Collect_failure_logged { client := { config := DefaultConfig } }
    { dynType := "*url.Error", text := "connection refused" } World.init).2.1 Flags.defaults []
  simpa [World.init] using h

/-! ## Calls that write no log line -/

theorem logLines_append (a b : List Event) : logLines (a ++ b) = logLines a ++ logLines b := by
  simp [logLines]

/-- The call `ConfigureTLS` keeps the level and the flags and writes no log line. -/
theorem ConfigureTLS_quiet (env : Env) (c : VaultConfig) (t : TLSConfig) (w : World) :
    (ConfigureTLS env c t w).1.level = w.level ∧ (ConfigureTLS env c t w).1.flags = w.flags ∧
      logLines (ConfigureTLS env c t w).1.events = logLines w.events := by
  unfold ConfigureTLS
  cases env.configureTLS c t <;> simp [World.emit, logLines]

/-- An `if` block of `NewExporter` keeps the level and the flags and writes no log line. -/
theorem tlsBlock_quiet (env : Env) (b : Prop) [Decidable b] (c : VaultConfig) (t : TLSConfig)
    (w w' : World) (r : Except GoError VaultConfig)
    (h : (if b then ConfigureTLS env c t w else (w, .ok c)) = (w', r)) :
    w'.level = w.level ∧ w'.flags = w.flags ∧ logLines w'.events = logLines w.events := by
  by_cases hb : b
  · rw [if_pos hb] at h
    have := ConfigureTLS_quiet env c t w
    rw [h] at this
    exact this
  · rw [if_neg hb] at h
    cases h
    exact ⟨rfl, rfl, rfl⟩

/-- The function `NewExporter` keeps the level and the flags and writes no log line. -/
theorem NewExporter_quiet (env : Env) (w : World) :
    (NewExporter env w).1.level = w.level ∧ (NewExporter env w).1.flags = w.flags ∧
      logLines (NewExporter env w).1.events = logLines w.events := by
  unfold NewExporter
  simp only []
  split
  · next w1 err1 h1 => exact tlsBlock_quiet env _ _ _ _ _ _ h1
  · next w1 c1 h1 =>
    obtain ⟨hl1, hf1, he1⟩ := tlsBlock_quiet env _ _ _ _ _ _ h1
    split
    · next w2 err2 h2 =>
      obtain ⟨hl2, hf2, he2⟩ := tlsBlock_quiet env _ _ _ _ _ _ h2
      exact ⟨hl2.trans hl1, hf2.trans hf1, he2.trans he1⟩
    · next w2 c2 h2 =>
      obtain ⟨hl2, hf2, he2⟩ := tlsBlock_quiet env _ _ _ _ _ _ h2
      have hq : ∀ ev : Event, (∀ msg, ev ≠ .println msg) →
          logLines (w2.events ++ [ev]) = logLines w.events := by
        intro ev hev
        rw [logLines_append, he2, he1]
        cases ev <;> simp_all [logLines]
      split
      · exact ⟨hl2.trans hl1, hf2.trans hf1, hq _ (by simp)⟩
      · exact ⟨hl2.trans hl1, hf2.trans hf1, hq _ (by simp)⟩

/-- An action other than `log.Println` adds no log line. -/
theorem logLines_emit (w : World) (ev : Event) (hev : ∀ msg, ev ≠ .println msg) :
    logLines (w.emit ev).events = logLines w.events := by
  cases ev <;> simp_all [logLines, World.emit]

/-- The function `Describe` keeps the level and the flags and writes no log line. -/
theorem Describe_quiet (e : Exporter) (w : World) :
    (Describe e w).level = w.level ∧ (Describe e w).flags = w.flags ∧
      logLines (Describe e w).events = logLines w.events := by
  simp [Describe, World.emit, logLines]

/-- The call `MustRegister` keeps the level and the flags and writes no log line. -/
theorem MustRegister_quiet (e : Exporter) (w : World) :
    (MustRegister e w).1.level = w.level ∧ (MustRegister e w).1.flags = w.flags ∧
      logLines (MustRegister e w).1.events = logLines w.events := by
  have hd := Describe_quiet e (w.emit (.mustRegister e.client))
  have he := logLines_emit w (.mustRegister e.client) (by simp)
  unfold MustRegister
  simp only []
  split
  · exact ⟨hd.1, hd.2.1, hd.2.2.trans he⟩
  · split
    · exact ⟨hd.1, hd.2.1, hd.2.2.trans he⟩
    · exact ⟨hd.1, hd.2.1, hd.2.2.trans he⟩

/-- The function `Infof` keeps the level and the flags. -/
theorem Infof_level (f : String) (a : List Operand) (w : World) :
    (log.Infof f a w).level = w.level ∧ (log.Infof f a w).flags = w.flags := by
  unfold log.Infof
  split <;> simp [World.emit]

/-- Below level `Info` the function `Infof` does nothing. -/
theorem Infof_below (f : String) (a : List Operand) (w : World) (h : w.level < log.Info) :
    log.Infof f a w = w := by
  simp [log.Infof, h]

/-- Recording an action keeps the level. -/
theorem emit_level (w : World) (ev : Event) : (w.emit ev).level = w.level := rfl

/-- The function `mainE` keeps the level, and below level `Info` it writes no log line. -/
theorem mainE_quiet (env : Env) (osArgs : List String) (w : World) :
    (mainE env osArgs w).1.level = w.level ∧
      (w.level < log.Info → logLines (mainE env osArgs w).1.events = logLines w.events) := by
  unfold mainE
  split
  · exact ⟨rfl, fun _ => logLines_emit w _ (by simp)⟩
  · cases osArgs with
    | nil => exact ⟨rfl, fun _ => rfl⟩
    | cons prog arguments =>
      simp only []
      split
      · exact ⟨rfl, fun _ => logLines_emit w _ (by simp)⟩
      · next fl rest hparse =>
        have hl0 : (log.Infof "Starting vault_exporter" [Operand.str env.versionInfo]
            { level := (w.emit (.flagParse arguments)).level, flags := fl,
              events := (w.emit (.flagParse arguments)).events }).level = w.level :=
          (Infof_level _ _ _).1
        generalize hw1 : log.Infof "Build context" [Operand.str env.buildContext]
          (log.Infof "Starting vault_exporter" [Operand.str env.versionInfo]
            { level := (w.emit (.flagParse arguments)).level, flags := fl,
              events := (w.emit (.flagParse arguments)).events }) = w1
        have hl1 : w1.level = w.level := by
          rw [← hw1, (Infof_level _ _ _).1, hl0]
        have he1 : w.level < log.Info → logLines w1.events = logLines w.events := by
          intro hlt
          have hs : log.Infof "Starting vault_exporter" [Operand.str env.versionInfo]
              { level := (w.emit (.flagParse arguments)).level, flags := fl,
                events := (w.emit (.flagParse arguments)).events } =
              { level := (w.emit (.flagParse arguments)).level, flags := fl,
                events := (w.emit (.flagParse arguments)).events } :=
            Infof_below _ _ _ hlt
          have hb : log.Infof "Build context" [Operand.str env.buildContext]
              { level := (w.emit (.flagParse arguments)).level, flags := fl,
                events := (w.emit (.flagParse arguments)).events } =
              { level := (w.emit (.flagParse arguments)).level, flags := fl,
                events := (w.emit (.flagParse arguments)).events } :=
            Infof_below _ _ _ hlt
          rw [← hw1, hs, hb]
          exact logLines_emit w _ (by simp)
        split
        · next w2 err h2 =>
          have hq := NewExporter_quiet env w1
          rw [h2] at hq
          exact ⟨hq.1.trans hl1, fun hlt => hq.2.2.trans (he1 hlt)⟩
        · next w2 exporter h2 =>
          have hq := NewExporter_quiet env w1
          rw [h2] at hq
          have hl2 : w2.level = w.level := hq.1.trans hl1
          have he2 : w.level < log.Info → logLines w2.events = logLines w.events :=
            fun hlt => hq.2.2.trans (he1 hlt)
          split
          · next w3 msg h3 =>
            have hr := MustRegister_quiet exporter w2
            rw [h3] at hr
            exact ⟨hr.1.trans hl2, fun hlt => hr.2.2.trans (he2 hlt)⟩
          · next w3 h3 =>
            have hr := MustRegister_quiet exporter w2
            rw [h3] at hr
            have hl3 : w3.level = w.level := hr.1.trans hl2
            have he3 : w.level < log.Info → logLines w3.events = logLines w.events :=
              fun hlt => hr.2.2.trans (he2 hlt)
            repeat' split
            all_goals
              refine ⟨by simp [emit_level, (Infof_level _ _ _).1, hl3], fun hlt => ?_⟩
              have hlt3 : w3.level < log.Info := hl3 ▸ hlt
              simp [Infof_below, emit_level, hlt3, logLines_emit, he3 hlt]

/-! ## The level gates of package `log` -/

/-- One more `log.Println` is one more log line. -/
theorem lineCount_println (w : World) (msg : Option String) :
    lineCount (w.emit (.println msg)) = lineCount w + 1 := by
  simp [lineCount, World.emit, logLines]

/-- A state with one more `log.Println` is a different state. -/
theorem println_ne (w : World) (msg : Option String) : w.emit (.println msg) ≠ w := by
  intro h
  have := lineCount_println w msg
  rw [h] at this
  omega

/-- C9: the levels are `Silent` 0, `Error` 1, `Info` 2, `Debug` 3; the level is `Error`
before any `SetLevel`; after `SetLevel l`, for every integer `l`, `Errorf` writes one line
exactly when `l` is at least `Error`, `Infof` exactly when `l` is at least `Info`, `Debugf`
exactly when `l` is at least `Debug`, and a call that does not write leaves the state as it
is; a call that writes at `l` writes at every level above `l`. -/
theorem log_level_gates (l : Int) (format : String) (args : List Operand) (w : World) :
    (log.Silent = 0 ∧ log.Error = 1 ∧ log.Info = 2 ∧ log.Debug = 3) ∧
    (log.Silent < log.Error ∧ log.Error < log.Info ∧ log.Info < log.Debug) ∧
    World.init.level = log.Error ∧
    (log.SetLevel l w).level = l ∧
    (lineCount (log.Errorf format args (log.SetLevel l w)) = lineCount w + 1 ↔ log.Error ≤ l) ∧
    (lineCount (log.Infof format args (log.SetLevel l w)) = lineCount w + 1 ↔ log.Info ≤ l) ∧
    (lineCount (log.Debugf format args (log.SetLevel l w)) = lineCount w + 1 ↔ log.Debug ≤ l) ∧
    (log.Errorf format args (log.SetLevel l w) = log.SetLevel l w ↔ l < log.Error) ∧
    (log.Infof format args (log.SetLevel l w) = log.SetLevel l w ↔ l < log.Info) ∧
    (log.Debugf format args (log.SetLevel l w) = log.SetLevel l w ↔ l < log.Debug) ∧
    (∀ l' : Int, l ≤ l' →
      (lineCount (log.Errorf format args (log.SetLevel l w)) = lineCount w + 1 →
        lineCount (log.Errorf format args (log.SetLevel l' w)) = lineCount w + 1) ∧
      (lineCount (log.Infof format args (log.SetLevel l w)) = lineCount w + 1 →
        lineCount (log.Infof format args (log.SetLevel l' w)) = lineCount w + 1) ∧
      (lineCount (log.Debugf format args (log.SetLevel l w)) = lineCount w + 1 →
        lineCount (log.Debugf format args (log.SetLevel l' w)) = lineCount w + 1)) := by
  have hcount : ∀ l : Int, lineCount (log.SetLevel l w) = lineCount w := fun _ => rfl
  have hE : ∀ l : Int,
      (lineCount (log.Errorf format args (log.SetLevel l w)) = lineCount w + 1 ↔ log.Error ≤ l) := by
    intro l
    unfold log.Errorf
    by_cases h : l < log.Error
    · have h' : (log.SetLevel l w).level < log.Error := h
      simp only [h', if_true, hcount]
      constructor
      · intro hc; omega
      · intro hc; omega
    · have h' : ¬ (log.SetLevel l w).level < log.Error := h
      simp only [h', if_false, lineCount_println, hcount]
      constructor
      · intro _; omega
      · intro _; trivial
  have hI : ∀ l : Int,
      (lineCount (log.Infof format args (log.SetLevel l w)) = lineCount w + 1 ↔ log.Info ≤ l) := by
    intro l
    unfold log.Infof
    by_cases h : l < log.Info
    · have h' : (log.SetLevel l w).level < log.Info := h
      simp only [h', if_true, hcount]
      constructor
      · intro hc; omega
      · intro hc; omega
    · have h' : ¬ (log.SetLevel l w).level < log.Info := h
      simp only [h', if_false, lineCount_println, hcount]
      constructor
      · intro _; omega
      · intro _; trivial
  have hD : ∀ l : Int,
      (lineCount (log.Debugf format args (log.SetLevel l w)) = lineCount w + 1 ↔ log.Debug ≤ l) := by
    intro l
    unfold log.Debugf
    by_cases h : l < log.Debug
    · have h' : (log.SetLevel l w).level < log.Debug := h
      simp only [h', if_true, hcount]
      constructor
      · intro hc; omega
      · intro hc; omega
    · have h' : ¬ (log.SetLevel l w).level < log.Debug := h
      simp only [h', if_false, lineCount_println, hcount]
      constructor
      · intro _; omega
      · intro _; trivial
  refine ⟨⟨rfl, rfl, rfl, rfl⟩, ⟨by decide, by decide, by decide⟩, rfl, rfl, hE l, hI l, hD l,
    ?_, ?_, ?_, ?_⟩
  · unfold log.Errorf
    by_cases h : l < log.Error
    · have h' : (log.SetLevel l w).level < log.Error := h
      simp [h', h]
    · have h' : ¬ (log.SetLevel l w).level < log.Error := h
      simp [h', h, println_ne]
  · unfold log.Infof
    by_cases h : l < log.Info
    · have h' : (log.SetLevel l w).level < log.Info := h
      simp [h', h]
    · have h' : ¬ (log.SetLevel l w).level < log.Info := h
      simp [h', h, println_ne]
  · unfold log.Debugf
    by_cases h : l < log.Debug
    · have h' : (log.SetLevel l w).level < log.Debug := h
      simp [h', h]
    · have h' : ¬ (log.SetLevel l w).level < log.Debug := h
      simp [h', h, println_ne]
  · intro l' hll
    refine ⟨fun h => (hE l').2 (le_trans ((hE l).1 h) hll),
      fun h => (hI l').2 (le_trans ((hI l).1 h) hll),
      fun h => (hD l').2 (le_trans ((hD l).1 h) hll)⟩

/-- C9, the table of the four levels on a concrete call: at `Silent` nothing is written, at
`Error` only `Errorf` writes, at `Info` also `Infof`, at `Debug` all three. -/
theorem log_level_table :
    [log.Silent, log.Error, log.Info, log.Debug].map (fun l =>
      ( lineCount (log.Errorf "e" [] (log.SetLevel l World.init)),
        lineCount (log.Infof "i" [] (log.SetLevel l World.init)),
        lineCount (log.Debugf "d" [] (log.SetLevel l World.init)) )) =
      [(0, 0, 0), (1, 0, 0), (1, 1, 0), (1, 1, 1)] ∧
    (log.Info ≤ log.Debug ∧
      lineCount (log.Infof "i" [] (log.SetLevel log.Debug World.init)) = lineCount World.init + 1) := by
  refine ⟨by decide, by decide, ?_⟩
  exact ((log_level_gates log.Info "i" [] World.init).2.2.2.2.2.2.2.2.2.2 log.Debug
    (by decide)).2.1 (by decide)

/-! ## The `version` argument of `mainE` -/

/-- C8 as amended: when the first argument after the program name is `version`, `mainE`
calls `version.Print` for `vault_exporter` and returns nil; it does nothing else: no flag
parsing, no exporter, no handler registration, no listener. -/
theorem mainE_version_first (env : Env) (osArgs : List String) (w : World)
    (h : osArgs.get? 1 = some "version") :
    mainE env osArgs w = (w.emit (.versionPrint "vault_exporter"), .returned none) := by
  have hlen : osArgs.length > 1 := by
    rcases osArgs with _ | ⟨a, _ | ⟨b, rest⟩⟩ <;> simp_all
  unfold mainE
  rw [if_pos ⟨hlen, h⟩]

/-- C8 as amended, on the argument list `vault_exporter version -insecure-ssl`. -/
theorem mainE_version_first_example :
    mainE sampleEnv ["vault_exporter", "version", "-insecure-ssl"] World.init =
      ({ level := log.Error, flags := Flags.defaults,
         events := [.versionPrint "vault_exporter"] }, .returned none) :=
  mainE_version_first sampleEnv ["vault_exporter", "version", "-insecure-ssl"] World.init rfl

/-- C8 as stated fails: in `vault_exporter -insecure-ssl version` the word `version` is the
positional argument, yet `mainE` parses the flags, builds the exporter, registers the
handlers and listens, and never calls `version.Print`. -/
theorem mainE_version_not_first :
    "version" ∈ positionalArgs ["vault_exporter", "-insecure-ssl", "version"] ∧
    (mainE sampleEnv ["vault_exporter", "-insecure-ssl", "version"] World.init).1.events =
      [ .flagParse ["-insecure-ssl", "version"],
        .configureTLS { CACert := "", ClientCert := "", ClientKey := "", Insecure := true },
        .newClient { tls := [{ CACert := "", ClientCert := "", ClientKey := "", Insecure := true }] },
        .mustRegister { config :=
          { tls := [{ CACert := "", ClientCert := "", ClientKey := "", Insecure := true }] } },
        .describe up, .describe initialized, .describe sealed, .describe standby, .describe info,
        .handle "/metrics", .handleFunc "/", .listenAndServe ":9410" ] ∧
    Event.versionPrint "vault_exporter" ∉
      (mainE sampleEnv ["vault_exporter", "-insecure-ssl", "version"] World.init).1.events ∧
    (mainE sampleEnv ["vault_exporter", "-insecure-ssl", "version"] World.init).2 ≠
      .returned none := by
  decide

/-! ## The level is never changed -/

theorem Errorf_level (f : String) (a : List Operand) (w : World) :
    (log.Errorf f a w).level = w.level := by
  obtain ⟨lines, hl⟩ := Errorf_events f a w
  rw [hl]

/-- The function `Collect` keeps the level. -/
theorem Collect_level (e : Exporter) (fetch : Except GoError HealthResponse) (w w' : World)
    (h : Collect e fetch w = .ok w') : w'.level = w.level := by
  cases fetch with
  | error err =>
    rw [Collect_error_eq] at h
    cases h
    rw [Errorf_level]
    rfl
  | ok hr =>
    rw [Collect_ok_eq] at h
    cases h
    rfl

/-- No call changes the level. -/
theorem exec_level (c : Call) (w : World) : (c.exec w).level = w.level := by
  cases c with
  | main env osArgs => exact (mainE_quiet env osArgs w).1
  | newExporter env => exact (NewExporter_quiet env w).1
  | describe e => exact (Describe_quiet e w).1
  | collect e fetch =>
    obtain ⟨w', hw'⟩ := Collect_returns e fetch w
    simp only [Call.exec, hw']
    exact Collect_level e fetch w w' hw'

/-- At level `Error` the only log line a call can add is the ERROR line of a failed fetch. -/
theorem exec_lines (c : Call) (w : World) (hw : w.level = log.Error) :
    ∀ line ∈ logLines (c.exec w).events, line ∈ logLines w.events ∨
      ∃ e err, c = .collect e (.error err) ∧
        line = some ("ERROR: Failed to collect health from Vault server: " ++ err.text) := by
  have hlt : w.level < log.Info := by rw [hw]; decide
  cases c with
  | main env osArgs =>
    intro line hline
    rw [show (Call.main env osArgs).exec w = (mainE env osArgs w).1 from rfl,
      (mainE_quiet env osArgs w).2 hlt] at hline
    exact Or.inl hline
  | newExporter env =>
    intro line hline
    rw [show (Call.newExporter env).exec w = (NewExporter env w).1 from rfl,
      (NewExporter_quiet env w).2.2] at hline
    exact Or.inl hline
  | describe e =>
    intro line hline
    rw [show (Call.describe e).exec w = Describe e w from rfl, (Describe_quiet e w).2.2] at hline
    exact Or.inl hline
  | collect e fetch =>
    intro line hline
    cases fetch with
    | ok hr =>
      simp only [Call.exec, Collect_ok_eq] at hline
      simp [logLines] at hline
      exact Or.inl (by simpa [logLines] using hline)
    | error err =>
      have hE := (Collect_failure_eq_at_error e err w hw)
      simp only [Call.exec, hE] at hline
      simp [logLines] at hline
      rcases hline with hline | hline
      · exact Or.inl (by simpa [logLines] using hline)
      · exact Or.inr ⟨e, err, rfl, hline⟩

/-- The invariant of runs that start at level `Error`. -/
theorem run_invariant (calls : List Call) (w : World) (hw : w.level = log.Error) :
    (run calls w).level = log.Error ∧
    ∀ line ∈ logLines (run calls w).events, line ∈ logLines w.events ∨
      ∃ e err, Call.collect e (.error err) ∈ calls ∧
        line = some ("ERROR: Failed to collect health from Vault server: " ++ err.text) := by
  induction calls generalizing w with
  | nil => exact ⟨hw, fun line hline => Or.inl hline⟩
  | cons c rest ih =>
    have hc : (c.exec w).level = log.Error := (exec_level c w).trans hw
    obtain ⟨hl, hlines⟩ := ih (c.exec w) hc
    refine ⟨hl, fun line hline => ?_⟩
    rcases hlines line hline with h | ⟨e, err, hmem, hline'⟩
    · rcases exec_lines c w hw line h with h' | ⟨e, err, hceq, hline'⟩
      · exact Or.inl h'
      · exact Or.inr ⟨e, err, by simp [hceq], hline'⟩
    · exact Or.inr ⟨e, err, by simp [hmem], hline'⟩

/-- C10: no call into the program changes the logger's level, so from the initial state
the level is `Error` after every sequence of calls to `mainE`, `NewExporter`, `Describe` and
`Collect`. Hence `mainE` adds no log line, whatever the arguments and the outside world,
each `Infof` call leaves the state as it is, and every log line ever written is the ERROR
line of a `Collect` call whose fetch failed. -/
theorem level_stays_Error (calls : List Call) :
    (∀ (c : Call) (w : World), (c.exec w).level = w.level) ∧
    (run calls World.init).level = log.Error ∧
    (∀ (env : Env) (osArgs : List String),
      logLines (mainE env osArgs (run calls World.init)).1.events =
        logLines (run calls World.init).events) ∧
    (∀ (format : String) (args : List Operand),
      log.Infof format args (run calls World.init) = run calls World.init) ∧
    (∀ line ∈ logLines (run calls World.init).events,
      ∃ e err, Call.collect e (.error err) ∈ calls ∧
        line = some ("ERROR: Failed to collect health from Vault server: " ++ err.text)) := by
  obtain ⟨hl, hlines⟩ := run_invariant calls World.init rfl
  have hlt : (run calls World.init).level < log.Info := by rw [hl]; decide
  refine ⟨exec_level, hl, fun env osArgs => (mainE_quiet env osArgs _).2 hlt,
    fun format args => Infof_below format args _ hlt, fun line hline => ?_⟩
  rcases hlines line hline with h | h
  · simp [World.init, logLines] at h
  · exact h

/-- C10 on a concrete run: `mainE` with the default flags, then a failed and a successful
scrape, leaves the level at `Error` and exactly one log line, the ERROR line. -/
theorem level_stays_Error_example :
    (run [ .main sampleEnv ["vault_exporter"],
           .collect { client := { config := DefaultConfig } }
             (.error { dynType := "*url.Error", text := "connection refused" }),
           .collect { client := { config := DefaultConfig } }
             (.ok { Initialized := true, Sealed := false, Standby := false,
                    Version := "1.2.3", ClusterName := "c1", ClusterID := "abc" }) ]
        World.init).level = log.Error ∧
    logLines (run [ .main sampleEnv ["vault_exporter"],
           .collect { client := { config := DefaultConfig } }
             (.error { dynType := "*url.Error", text := "connection refused" }),
           .collect { client := { config := DefaultConfig } }
             (.ok { Initialized := true, Sealed := false, Standby := false,
                    Version := "1.2.3", ClusterName := "c1", ClusterID := "abc" }) ]
        World.init).events =
      [some "ERROR: Failed to collect health from Vault server: connection refused"] := by
  refine ⟨(level_stays_Error _).2.1, ?_⟩
  decide

end VaultExporter
